import Mathlib

/-!
Verification of the Copernicus regridding pipeline (`blum.py`) against its
specification.  The pipeline's numeric core — bounding-box normalization,
subsetting, longitude rewrap, grid construction, two-pass interpolation and
tabular output — is embedded shallowly over `ℚ` (exact arithmetic in place of
IEEE floats), and the batch driver (`handle_copernicus_file` plus the
processing loop) is embedded as explicit data flow over per-unit outcomes.
-/

/- ---------------------------------------------------------------------
Rational ceiling: `Rat.ceil` is the executable ceiling on `ℚ`; we relate it
to `Int.ceil` once and use it inside grid construction so that concrete
lattices evaluate by reduction.
--------------------------------------------------------------------- -/

theorem rat_ceil_eq_ceil (x : ℚ) : Rat.ceil x = ⌈x⌉ := by
  unfold Rat.ceil
  split
  · rename_i h
    conv_rhs => rw [← Rat.coe_int_num_of_den_eq_one h]
    rw [Int.ceil_intCast]
  · rename_i h
    rw [← Rat.floor_def]
    symm
    rw [Int.ceil_eq_iff]
    refine ⟨?_, ?_⟩
    · push_cast
      rw [add_sub_cancel_right]
      rcases lt_or_eq_of_le (Int.floor_le x) with h' | h'
      · exact h'
      · exact absurd (h' ▸ Rat.den_intCast ⌊x⌋) h
    · push_cast
      exact (Int.lt_floor_add_one x).le

/- ---------------------------------------------------------------------
Grid Builder (blum.py lines 145-149).

    grid_spacing = 0.125
    grid_lons = np.arange(lon_min, lon_max + 0.0001, grid_spacing)
    grid_lats = np.arange(lat_min, lat_max + 0.0001, grid_spacing)
    grid_lat, grid_lon = np.meshgrid(grid_lats, grid_lons, indexing='ij')
    grid_points = np.c_[grid_lat.ravel(), grid_lon.ravel()]

`np.arange(start, stop, step)` with positive `step` produces
`start + k*step` for `0 ≤ k < ceil((stop-start)/step)` (empty when
`stop ≤ start`); `meshgrid(..., indexing='ij')` followed by `ravel`
enumerates the Cartesian product latitude-major.
--------------------------------------------------------------------- -/

def arange (start stop step : ℚ) : List ℚ :=
  (List.range (Rat.ceil ((stop - start) / step)).toNat).map
    (fun k : ℕ => start + (k : ℚ) * step)

def grid_spacing : ℚ := 1/8

def grid_eps : ℚ := 1/10000

def grid_lats (lat_min lat_max : ℚ) : List ℚ :=
  arange lat_min (lat_max + grid_eps) grid_spacing

def grid_lons (lon_min lon_max : ℚ) : List ℚ :=
  arange lon_min (lon_max + grid_eps) grid_spacing

def grid_points (lat_min lat_max lon_min lon_max : ℚ) : List (ℚ × ℚ) :=
  (grid_lats lat_min lat_max).flatMap
    (fun la => (grid_lons lon_min lon_max).map (fun lo => (la, lo)))

theorem mem_arange_iff (start stop step x : ℚ) :
    x ∈ arange start stop step ↔
      ∃ k : ℕ, k < (Rat.ceil ((stop - start) / step)).toNat ∧
        x = start + (k : ℚ) * step := by
  constructor
  · intro hx
    obtain ⟨k, hk, he⟩ := List.mem_map.mp hx
    exact ⟨k, List.mem_range.mp hk, he.symm⟩
  · rintro ⟨k, hk, hx⟩
    exact List.mem_map.mpr ⟨k, List.mem_range.mpr hk, hx.symm⟩

theorem start_mem_arange (start stop step : ℚ) (h1 : start < stop) (h2 : 0 < step) :
    start ∈ arange start stop step := by
  rw [mem_arange_iff]
  refine ⟨0, ?_, by push_cast; ring⟩
  have hpos : (0 : ℚ) < (stop - start) / step := div_pos (by linarith) h2
  have : (0 : ℤ) < ⌈(stop - start) / step⌉ := Int.ceil_pos.mpr hpos
  rw [rat_ceil_eq_ceil]
  omega

theorem stop_mem_grid_axis (lo hi : ℚ) (k : ℕ) (hk : hi = lo + (k : ℚ) * grid_spacing) :
    hi ∈ arange lo (hi + grid_eps) grid_spacing := by
  rw [mem_arange_iff]
  refine ⟨k, ?_, hk⟩
  have hq : (hi + grid_eps - lo) / grid_spacing = 1/1250 + ((k : ℤ) : ℚ) := by
    subst hk
    simp only [grid_spacing, grid_eps]
    push_cast
    ring
  rw [rat_ceil_eq_ceil, hq, Int.ceil_add_int]
  have h1 : ⌈(1 : ℚ)/1250⌉ = 1 := by
    rw [Int.ceil_eq_iff]
    norm_num
  rw [h1]
  omega

theorem grid_axis_mem_imp (lo hi x : ℚ) (hx : x ∈ arange lo (hi + grid_eps) grid_spacing) :
    ∃ k : ℕ, x = lo + (k : ℚ) * grid_spacing := by
  rw [mem_arange_iff] at hx
  obtain ⟨k, _, rfl⟩ := hx
  exact ⟨k, rfl⟩

/-- C3 (counterexample): for the box `lat_min = 0`, `lat_max = 0.3` (a valid box,
`0 ≤ 0.3`), the latitude axis of the lattice is `[0, 0.125, 0.25]`: it does not
contain `lat_max = 0.3`, contradicting the claim that the lattice always
contains the box maximum. -/
theorem C3_counterexample :
    ((0 : ℚ) ≤ 3/10) ∧ (3/10 : ℚ) ∉ grid_lats 0 (3/10) := by
  constructor
  · norm_num
  · with_unfolding_all decide

/-- C3 (amended): for every box with `lat_min ≤ lat_max` and `lon_min ≤ lon_max`,
the lattice is the Cartesian product of a latitude and a longitude sequence,
each starting at the box minimum and stepping by 0.125°; it always contains
`lat_min` and `lon_min` (so `(lat_min, lon_min)` is a lattice point), every
axis value is `min + k·0.125`, and the box maximum is contained in its axis iff
the box span is an exact whole multiple of the 0.125° spacing — in that case
the `0.0001` epsilon margin guarantees its inclusion. -/
theorem C3_grid_includes_bounds (lat_min lat_max lon_min lon_max : ℚ)
    (hlat : lat_min ≤ lat_max) (hlon : lon_min ≤ lon_max) :
    lat_min ∈ grid_lats lat_min lat_max ∧
    lon_min ∈ grid_lons lon_min lon_max ∧
    (lat_min, lon_min) ∈ grid_points lat_min lat_max lon_min lon_max ∧
    (∀ x ∈ grid_lats lat_min lat_max, ∃ k : ℕ, x = lat_min + (k : ℚ) * grid_spacing) ∧
    (∀ x ∈ grid_lons lon_min lon_max, ∃ k : ℕ, x = lon_min + (k : ℚ) * grid_spacing) ∧
    (lat_max ∈ grid_lats lat_min lat_max ↔
      ∃ k : ℕ, lat_max = lat_min + (k : ℚ) * grid_spacing) ∧
    (lon_max ∈ grid_lons lon_min lon_max ↔
      ∃ k : ℕ, lon_max = lon_min + (k : ℚ) * grid_spacing) ∧
    grid_points lat_min lat_max lon_min lon_max =
      (grid_lats lat_min lat_max).flatMap
        (fun la => (grid_lons lon_min lon_max).map (fun lo => (la, lo))) := by
  have heps : (0 : ℚ) < grid_eps := by norm_num [grid_eps]
  have hstep : (0 : ℚ) < grid_spacing := by norm_num [grid_spacing]
  have hlat0 : lat_min ∈ grid_lats lat_min lat_max :=
    start_mem_arange _ _ _ (by linarith) hstep
  have hlon0 : lon_min ∈ grid_lons lon_min lon_max :=
    start_mem_arange _ _ _ (by linarith) hstep
  refine ⟨hlat0, hlon0, ?_, ?_, ?_, ?_, ?_, rfl⟩
  · exact List.mem_flatMap.mpr ⟨lat_min, hlat0, List.mem_map.mpr ⟨lon_min, hlon0, rfl⟩⟩
  · exact fun x hx => grid_axis_mem_imp _ _ _ hx
  · exact fun x hx => grid_axis_mem_imp _ _ _ hx
  · exact ⟨fun h => grid_axis_mem_imp _ _ _ h, fun ⟨k, hk⟩ => stop_mem_grid_axis _ _ k hk⟩
  · exact ⟨fun h => grid_axis_mem_imp _ _ _ h, fun ⟨k, hk⟩ => stop_mem_grid_axis _ _ k hk⟩

/-- C3 (witness): the amended theorem applied to the box
`lat ∈ [10, 10.25]`, `lon ∈ [20, 20.125]`, whose spans are exact multiples of
the spacing, so both maxima are lattice axis members. -/
theorem C3_grid_includes_bounds_witness :
    (10 : ℚ) ∈ grid_lats 10 (41/4) ∧ (41/4 : ℚ) ∈ grid_lats 10 (41/4) := by
  have h := C3_grid_includes_bounds 10 (41/4) 20 (161/8) (by norm_num) (by norm_num)
  refine ⟨h.1, ?_⟩
  exact (h.2.2.2.2.2.1).mpr ⟨2, by norm_num [grid_spacing]⟩

/- ---------------------------------------------------------------------
Data model: a ScatterPoint is one (lat, lon, value) row of the flattened,
NaN-dropped subset dataframe (blum.py lines 135-136).
--------------------------------------------------------------------- -/

structure ScatterPoint where
  lat : ℚ
  lon : ℚ
  val : ℚ
deriving DecidableEq

/- ---------------------------------------------------------------------
Subset Extractor (blum.py lines 130-134).

    if ds.lat.values[0] > ds.lat.values[-1]:
        lat_min, lat_max = lat_max, lat_min
    ...
    subset = ds[var].sel(lat=slice(lat_min, lat_max), ...)

`xarray`'s label slicing on a monotonic axis keeps the labels lying between
the slice bounds taken in the axis's stored direction: on a descending axis
`slice(a, b)` keeps the entries `x` with `b ≤ x ≤ a`, on an ascending axis
those with `a ≤ x ≤ b`.
--------------------------------------------------------------------- -/

def lat_descending (lat_vals : List ℚ) : Bool :=
  decide (lat_vals.getLastD 0 < lat_vals.headD 0)

def swap_lat_bounds (lat_vals : List ℚ) (lat_min lat_max : ℚ) : ℚ × ℚ :=
  if lat_descending lat_vals then (lat_max, lat_min) else (lat_min, lat_max)

def sel_lat_slice (lat_vals : List ℚ) (a b : ℚ) : List ℚ :=
  if lat_descending lat_vals then
    lat_vals.filter (fun x => decide (b ≤ x) && decide (x ≤ a))
  else
    lat_vals.filter (fun x => decide (a ≤ x) && decide (x ≤ b))

/-- C4: after the extractor's axis-direction swap, label slicing selects
exactly the latitudes of `[lat_min, lat_max]` whatever the stored axis order;
in particular on the descending axis `[10, 9, …, 0]` with the requested box
`lat_min = 2`, `lat_max = 5` the selected rows are the latitudes `5, 4, 3, 2`
(in stored order), not an empty slice. -/
theorem C4_descending_slice :
    (∀ lat_vals lat_min lat_max,
      sel_lat_slice lat_vals (swap_lat_bounds lat_vals lat_min lat_max).1
          (swap_lat_bounds lat_vals lat_min lat_max).2 =
        lat_vals.filter (fun x => decide (lat_min ≤ x) && decide (x ≤ lat_max))) ∧
    sel_lat_slice [10, 9, 8, 7, 6, 5, 4, 3, 2, 1, 0]
        (swap_lat_bounds [10, 9, 8, 7, 6, 5, 4, 3, 2, 1, 0] 2 5).1
        (swap_lat_bounds [10, 9, 8, 7, 6, 5, 4, 3, 2, 1, 0] 2 5).2 =
      [5, 4, 3, 2] := by
  constructor
  · intro lat_vals lmin lmax
    by_cases h : lat_descending lat_vals = true
    · simp [sel_lat_slice, swap_lat_bounds, h]
    · simp [sel_lat_slice, swap_lat_bounds, h]
  · with_unfolding_all decide

/- ---------------------------------------------------------------------
Longitude Normalizer (blum.py lines 139-142).

    if df['lon'].max() > 180:
        df['lon'] = df['lon'] % 360
        lon_min = lon_min % 360
        lon_max = lon_max % 360

Python's float `%` returns a result with the sign of the divisor:
`x % 360 = x - 360 * floor(x / 360)`, which lies in `[0, 360)`.  On a
non-empty column, `max > 180` holds iff some longitude exceeds 180; on an
empty column the comparison with NaN is falsy and nothing is rewrapped.
--------------------------------------------------------------------- -/

def pymod (x m : ℚ) : ℚ := x - m * ⌊x / m⌋

def rewrap_lons (pts : List ScatterPoint) (lon_min lon_max : ℚ) :
    List ScatterPoint × ℚ × ℚ :=
  if pts.any (fun p => decide (180 < p.lon)) then
    (pts.map (fun p => ScatterPoint.mk p.lat (pymod p.lon 360) p.val),
      pymod lon_min 360, pymod lon_max 360)
  else
    (pts, lon_min, lon_max)

theorem pymod_nonneg (x : ℚ) : 0 ≤ pymod x 360 := by
  unfold pymod
  have h360 : (0 : ℚ) < 360 := by norm_num
  have hf : ((⌊x / 360⌋ : ℚ)) * 360 ≤ x := (le_div_iff₀ h360).mp (Int.floor_le (x / 360))
  linarith

theorem pymod_lt (x : ℚ) : pymod x 360 < 360 := by
  unfold pymod
  have h360 : (0 : ℚ) < 360 := by norm_num
  have hf : x < ((⌊x / 360⌋ : ℚ) + 1) * 360 := (div_lt_iff₀ h360).mp (Int.lt_floor_add_one (x / 360))
  linarith

/-- C5: whenever some longitude of the clipped ScatterPoint set exceeds 180°,
every point's longitude and both bounding-box longitude bounds are remapped by
the same modulo-360 rule into `[0, 360)` (so negative values wrap as well, and
each remapped longitude differs from the original by an integer multiple of
360°), no point is dropped (the value column is preserved point-for-point);
when no longitude exceeds 180°, points and bounds are returned unchanged. -/
theorem C5_lon_rewrap (pts : List ScatterPoint) (lon_min lon_max : ℚ) :
    ((∀ p ∈ pts, p.lon ≤ 180) → rewrap_lons pts lon_min lon_max = (pts, lon_min, lon_max)) ∧
    ((∃ p ∈ pts, 180 < p.lon) →
      (rewrap_lons pts lon_min lon_max).1 =
        pts.map (fun p => ScatterPoint.mk p.lat (pymod p.lon 360) p.val) ∧
      (rewrap_lons pts lon_min lon_max).2.1 = pymod lon_min 360 ∧
      (rewrap_lons pts lon_min lon_max).2.2 = pymod lon_max 360 ∧
      (∀ p ∈ (rewrap_lons pts lon_min lon_max).1, 0 ≤ p.lon ∧ p.lon < 360) ∧
      (0 ≤ pymod lon_min 360 ∧ pymod lon_min 360 < 360) ∧
      (0 ≤ pymod lon_max 360 ∧ pymod lon_max 360 < 360) ∧
      (rewrap_lons pts lon_min lon_max).1.map ScatterPoint.val =
        pts.map ScatterPoint.val ∧
      (∀ p ∈ pts, ∃ z : ℤ, pymod p.lon 360 = p.lon - 360 * z)) := by
  constructor
  · intro hall
    have hcond : pts.any (fun p => decide (180 < p.lon)) = false := by
      rw [List.any_eq_false]
      intro p hp
      simpa using hall p hp
    simp [rewrap_lons, hcond]
  · intro hex
    have hcond : pts.any (fun p => decide (180 < p.lon)) = true := by
      rw [List.any_eq_true]
      obtain ⟨p, hp, h180⟩ := hex
      exact ⟨p, hp, by simpa using h180⟩
    refine ⟨by simp [rewrap_lons, hcond], by simp [rewrap_lons, hcond],
      by simp [rewrap_lons, hcond], ?_, ⟨pymod_nonneg _, pymod_lt _⟩,
      ⟨pymod_nonneg _, pymod_lt _⟩, ?_, ?_⟩
    · intro p hp
      simp only [rewrap_lons, hcond, if_pos] at hp
      obtain ⟨q, _, rfl⟩ := List.mem_map.mp hp
      exact ⟨pymod_nonneg _, pymod_lt _⟩
    · simp [rewrap_lons, hcond, Function.comp]
    · intro p _
      exact ⟨⌊p.lon / 360⌋, rfl⟩

/-- C5 (witness): the rewrap theorem applied to a single source point at
longitude 200° with requested bounds 150°–190°: the wrap fires, and both the
remapped point and bounds land in `[0, 360)`. -/
theorem C5_lon_rewrap_witness :
    (rewrap_lons [ScatterPoint.mk 0 200 1] 150 190).2.2 = pymod 190 360 ∧
    ∀ p ∈ (rewrap_lons [ScatterPoint.mk 0 200 1] 150 190).1, 0 ≤ p.lon ∧ p.lon < 360 := by
  have h := (C5_lon_rewrap [ScatterPoint.mk 0 200 1] 150 190).2
    ⟨ScatterPoint.mk 0 200 1, by simp, by norm_num⟩
  exact ⟨h.2.2.1, h.2.2.2.1⟩

/- ---------------------------------------------------------------------
Interpolator (blum.py lines 151-159).

    grid_values = griddata(points, values, grid_points, method='linear')
    nan_mask = np.isnan(grid_values)
    if np.any(nan_mask):
        grid_values[nan_mask] = griddata(points, values, grid_points[nan_mask], method='nearest')

`scipy.interpolate.griddata(..., method='linear')` builds a Delaunay
triangulation of the source points and evaluates the piecewise-linear
(barycentric) interpolant; query points in no triangle get NaN.  When the
source points are empty or have no non-collinear triple, the triangulation
raises (ValueError / QhullError) and the exception escapes to the caller.
`method='nearest'` returns the value of a closest source point.  The
embedding keeps the triangulation `T` as a parameter constrained by
`valid_triangulation` (the properties every Delaunay triangulation of the
source points has), since the claims depend only on those properties.
--------------------------------------------------------------------- -/

def coords (p : ScatterPoint) : ℚ × ℚ := (p.lat, p.lon)

def sub2 (u v : ℚ × ℚ) : ℚ × ℚ := (u.1 - v.1, u.2 - v.2)

def cross2 (u v : ℚ × ℚ) : ℚ := u.1 * v.2 - u.2 * v.1

structure Tri where
  a : ScatterPoint
  b : ScatterPoint
  c : ScatterPoint
deriving DecidableEq

def triDet (t : Tri) : ℚ :=
  cross2 (sub2 (coords t.b) (coords t.a)) (sub2 (coords t.c) (coords t.a))

def lamB (t : Tri) (q : ℚ × ℚ) : ℚ :=
  cross2 (sub2 q (coords t.a)) (sub2 (coords t.c) (coords t.a)) / triDet t

def lamC (t : Tri) (q : ℚ × ℚ) : ℚ :=
  cross2 (sub2 (coords t.b) (coords t.a)) (sub2 q (coords t.a)) / triDet t

def lamA (t : Tri) (q : ℚ × ℚ) : ℚ := 1 - lamB t q - lamC t q

def triContains (t : Tri) (q : ℚ × ℚ) : Bool :=
  decide (triDet t ≠ 0) && decide (0 ≤ lamA t q) &&
    decide (0 ≤ lamB t q) && decide (0 ≤ lamC t q)

def triValue (t : Tri) (q : ℚ × ℚ) : ℚ :=
  lamA t q * t.a.val + lamB t q * t.b.val + lamC t q * t.c.val

def linear_interp_at (T : List Tri) (q : ℚ × ℚ) : Option ℚ :=
  (T.find? (fun t => triContains t q)).map (fun t => triValue t q)

def dist2 (u v : ℚ × ℚ) : ℚ := (u.1 - v.1) ^ 2 + (u.2 - v.2) ^ 2

def nearest_fold (q : ℚ × ℚ) (l : List ScatterPoint) (p : ScatterPoint) : ScatterPoint :=
  l.foldl (fun u x => if dist2 (coords x) q < dist2 (coords u) q then x else u) p

def nearest_point (pts : List ScatterPoint) (q : ℚ × ℚ) : Option ScatterPoint :=
  match pts with
  | [] => none
  | p :: ps => some (nearest_fold q ps p)

def nearest_interp_at (pts : List ScatterPoint) (q : ℚ × ℚ) : Option ℚ :=
  (nearest_point pts q).map ScatterPoint.val

def interp_at (pts : List ScatterPoint) (T : List Tri) (q : ℚ × ℚ) : Option ℚ :=
  match linear_interp_at T q with
  | some v => some v
  | none => nearest_interp_at pts q

def noncollinear_triple (pts : List ScatterPoint) : Bool :=
  pts.any fun p1 => pts.any fun p2 => pts.any fun p3 =>
    decide (cross2 (sub2 (coords p2) (coords p1)) (sub2 (coords p3) (coords p1)) ≠ 0)

def interp_values (pts : List ScatterPoint) (T : List Tri) (gpts : List (ℚ × ℚ)) :
    List (Option ℚ) :=
  gpts.map (interp_at pts T)

def qhull_degenerate_msg : String :=
  "QhullError: fewer than 3 non-collinear source points"

def interpolate_two_pass (pts : List ScatterPoint) (T : List Tri) (gpts : List (ℚ × ℚ)) :
    Except String (List (Option ℚ)) :=
  if noncollinear_triple pts then Except.ok (interp_values pts T gpts)
  else Except.error qhull_degenerate_msg

def valid_triangulation (pts : List ScatterPoint) (T : List Tri) : Prop :=
  (∀ t ∈ T, t.a ∈ pts ∧ t.b ∈ pts ∧ t.c ∈ pts ∧ triDet t ≠ 0 ∧
    ∀ p ∈ pts, triContains t (coords p) = true →
      coords p = coords t.a ∨ coords p = coords t.b ∨ coords p = coords t.c) ∧
  (∀ p ∈ pts, ∃ t ∈ T,
    coords p = coords t.a ∨ coords p = coords t.b ∨ coords p = coords t.c)

instance valid_triangulation_decidable (pts : List ScatterPoint) (T : List Tri) :
    Decidable (valid_triangulation pts T) := by
  unfold valid_triangulation
  infer_instance

theorem cross2_zero_left (v : ℚ × ℚ) : cross2 (0, 0) v = 0 := by
  simp [cross2]

theorem cross2_self (u : ℚ × ℚ) : cross2 u u = 0 := by
  simp [cross2, mul_comm]

theorem sub2_self (u : ℚ × ℚ) : sub2 u u = (0, 0) := by
  simp [sub2]

theorem lamB_vertex_a (t : Tri) : lamB t (coords t.a) = 0 := by
  rw [lamB, sub2_self, cross2_zero_left, zero_div]

theorem lamC_vertex_a (t : Tri) : lamC t (coords t.a) = 0 := by
  rw [lamC, sub2_self]
  simp [cross2]

theorem lamB_vertex_b (t : Tri) (hd : triDet t ≠ 0) : lamB t (coords t.b) = 1 := by
  rw [lamB]
  exact div_self hd

theorem lamC_vertex_b (t : Tri) : lamC t (coords t.b) = 0 := by
  rw [lamC, cross2_self, zero_div]

theorem lamB_vertex_c (t : Tri) : lamB t (coords t.c) = 0 := by
  rw [lamB, cross2_self, zero_div]

theorem lamC_vertex_c (t : Tri) (hd : triDet t ≠ 0) : lamC t (coords t.c) = 1 := by
  rw [lamC]
  exact div_self hd

theorem triValue_vertex_a (t : Tri) : triValue t (coords t.a) = t.a.val := by
  rw [triValue, lamA, lamB_vertex_a, lamC_vertex_a]
  ring

theorem triValue_vertex_b (t : Tri) (hd : triDet t ≠ 0) :
    triValue t (coords t.b) = t.b.val := by
  rw [triValue, lamA, lamB_vertex_b t hd, lamC_vertex_b]
  ring

theorem triValue_vertex_c (t : Tri) (hd : triDet t ≠ 0) :
    triValue t (coords t.c) = t.c.val := by
  rw [triValue, lamA, lamB_vertex_c, lamC_vertex_c t hd]
  ring

theorem triContains_vertex (t : Tri) (hd : triDet t ≠ 0) (q : ℚ × ℚ)
    (hq : q = coords t.a ∨ q = coords t.b ∨ q = coords t.c) :
    triContains t q = true := by
  rcases hq with rfl | rfl | rfl
  · simp [triContains, hd, lamA, lamB_vertex_a, lamC_vertex_a]
  · simp [triContains, hd, lamA, lamB_vertex_b t hd, lamC_vertex_b]
  · simp [triContains, hd, lamA, lamB_vertex_c, lamC_vertex_c t hd]

/-- C8: on a lattice point that coincides exactly with a source point, the
primary linear pass returns exactly that source point's value: for any
triangulation with the properties of a Delaunay triangulation of the source
set (vertices drawn from the source set, non-degenerate triangles, no source
point interior to a triangle, every source point a vertex of some triangle),
and any source set assigning one value per coordinate, linear interpolation at
the coinciding point is the identity. -/
theorem C8_exact_match_identity (pts : List ScatterPoint) (T : List Tri)
    (p : ScatterPoint) (hvalid : valid_triangulation pts T)
    (hinj : ∀ p1 ∈ pts, ∀ p2 ∈ pts, coords p1 = coords p2 → p1.val = p2.val)
    (hp : p ∈ pts) :
    linear_interp_at T (coords p) = some p.val := by
  obtain ⟨t0, ht0T, hv0⟩ := hvalid.2 p hp
  obtain ⟨-, -, -, hdet0, -⟩ := hvalid.1 t0 ht0T
  have hcont0 : triContains t0 (coords p) = true := triContains_vertex t0 hdet0 _ hv0
  have hsome : (T.find? (fun t => triContains t (coords p))).isSome :=
    List.find?_isSome.mpr ⟨t0, ht0T, hcont0⟩
  obtain ⟨t, ht⟩ := Option.isSome_iff_exists.mp hsome
  have htT : t ∈ T := List.mem_of_find?_eq_some ht
  have hcont : triContains t (coords p) = true := by
    have h2 := List.find?_some ht
    exact h2
  obtain ⟨haT, hbT, hcT, hdet, hsep⟩ := hvalid.1 t htT
  have hval : triValue t (coords p) = p.val := by
    rcases hsep p hp hcont with he | he | he
    · rw [he, triValue_vertex_a]
      exact (hinj p hp t.a haT he).symm
    · rw [he, triValue_vertex_b t hdet]
      exact (hinj p hp t.b hbT he).symm
    · rw [he, triValue_vertex_c t hdet]
      exact (hinj p hp t.c hcT he).symm
  rw [linear_interp_at, ht]
  simp [hval]

/-- C8 (witness): the identity property applied to the concrete source set
`{(0,0)↦1, (1,0)↦2, (0,1)↦3}` with its one-triangle Delaunay triangulation,
at the lattice point `(0, 0)`. -/
theorem C8_exact_match_identity_witness :
    linear_interp_at [Tri.mk ⟨0, 0, 1⟩ ⟨1, 0, 2⟩ ⟨0, 1, 3⟩] (coords ⟨0, 0, 1⟩) =
      some (1 : ℚ) := by
  have h := C8_exact_match_identity
    [⟨0, 0, 1⟩, ⟨1, 0, 2⟩, ⟨0, 1, 3⟩]
    [Tri.mk ⟨0, 0, 1⟩ ⟨1, 0, 2⟩ ⟨0, 1, 3⟩]
    ⟨0, 0, 1⟩
    (by with_unfolding_all decide)
    (by with_unfolding_all decide)
    (by with_unfolding_all decide)
  exact h

theorem nearest_fold_spec (q : ℚ × ℚ) (l : List ScatterPoint) (p : ScatterPoint) :
    (nearest_fold q l p = p ∨ nearest_fold q l p ∈ l) ∧
    dist2 (coords (nearest_fold q l p)) q ≤ dist2 (coords p) q ∧
    ∀ o ∈ l, dist2 (coords (nearest_fold q l p)) q ≤ dist2 (coords o) q := by
  induction l generalizing p with
  | nil => exact ⟨Or.inl rfl, le_refl _, fun o ho => absurd ho (List.not_mem_nil o)⟩
  | cons x xs ih =>
    have hstep : nearest_fold q (x :: xs) p =
        nearest_fold q xs (if dist2 (coords x) q < dist2 (coords p) q then x else p) := rfl
    set u := if dist2 (coords x) q < dist2 (coords p) q then x else p with hu
    have hup : dist2 (coords u) q ≤ dist2 (coords p) q := by
      rw [hu]
      split
      · exact le_of_lt (by assumption)
      · exact le_refl _
    have hux : dist2 (coords u) q ≤ dist2 (coords x) q := by
      rw [hu]
      split
      · exact le_refl _
      · exact le_of_not_lt (by assumption)
    obtain ⟨hmem, hle, hall⟩ := ih u
    refine ⟨?_, ?_, ?_⟩
    · rw [hstep]
      rcases hmem with h | h
      · rw [h, hu]
        split
        · exact Or.inr (List.mem_cons_self x xs)
        · exact Or.inl rfl
      · exact Or.inr (List.mem_cons_of_mem x h)
    · rw [hstep]
      exact le_trans hle hup
    · intro o ho
      rw [hstep]
      rcases List.mem_cons.mp ho with rfl | ho'
      · exact le_trans hle hux
      · exact hall o ho'

theorem nearest_point_spec (pts : List ScatterPoint) (q : ℚ × ℚ) (hne : pts ≠ []) :
    ∃ u, nearest_point pts q = some u ∧ u ∈ pts ∧
      ∀ o ∈ pts, dist2 (coords u) q ≤ dist2 (coords o) q := by
  match pts, hne with
  | p :: ps, _ =>
    obtain ⟨hmem, hle, hall⟩ := nearest_fold_spec q ps p
    refine ⟨nearest_fold q ps p, rfl, ?_, ?_⟩
    · rcases hmem with h | h
      · rw [h]
        exact List.mem_cons_self p ps
      · exact List.mem_cons_of_mem p h
    · intro o ho
      rcases List.mem_cons.mp ho with rfl | ho'
      · exact hle
      · exact hall o ho'

theorem noncollinear_triple_ne_nil (pts : List ScatterPoint)
    (h : noncollinear_triple pts = true) : pts ≠ [] := by
  intro hcon
  rw [hcon] at h
  simp [noncollinear_triple] at h

/-- C2: given at least 3 non-collinear source points, the two-pass
interpolation succeeds and leaves no lattice point undefined — every lattice
point missed by the linear pass gets the value of a closest source point from
the nearest-neighbor fallback; given an empty or degenerate (no non-collinear
triple) source set, the unit fails with the triangulation error instead of
emitting values. -/
theorem C2_two_pass_total_or_error (pts : List ScatterPoint) (T : List Tri)
    (gpts : List (ℚ × ℚ)) :
    ((pts = [] ∨ noncollinear_triple pts = false) →
      interpolate_two_pass pts T gpts = Except.error qhull_degenerate_msg) ∧
    (noncollinear_triple pts = true →
      interpolate_two_pass pts T gpts = Except.ok (interp_values pts T gpts) ∧
      (∀ v ∈ interp_values pts T gpts, v.isSome = true) ∧
      (∀ q ∈ gpts, linear_interp_at T q = none →
        ∃ p ∈ pts, interp_at pts T q = some p.val ∧
          ∀ o ∈ pts, dist2 (coords p) q ≤ dist2 (coords o) q)) := by
  constructor
  · intro h
    have hfalse : noncollinear_triple pts = false := by
      rcases h with rfl | h
      · simp [noncollinear_triple]
      · exact h
    simp [interpolate_two_pass, hfalse]
  · intro htrue
    have hne : pts ≠ [] := noncollinear_triple_ne_nil pts htrue
    refine ⟨by simp [interpolate_two_pass, htrue], ?_, ?_⟩
    · intro v hv
      obtain ⟨q, -, rfl⟩ := List.mem_map.mp hv
      rw [interp_at]
      cases hlin : linear_interp_at T q with
      | some w => simp
      | none =>
        obtain ⟨u, hu, -, -⟩ := nearest_point_spec pts q hne
        simp [nearest_interp_at, hu]
    · intro q _ hlin
      obtain ⟨u, hu, humem, hubest⟩ := nearest_point_spec pts q hne
      refine ⟨u, humem, ?_, hubest⟩
      rw [interp_at, hlin]
      simp [nearest_interp_at, hu]

/-- C2 (witness): the totality half applied to the concrete non-degenerate
source set `{(0,0)↦1, (1,0)↦2, (0,1)↦3}`, its one-triangle triangulation and
the two lattice points `(0,0)` (inside the hull) and `(2,2)` (outside, served
by the nearest-neighbor fallback): the unit succeeds and both values are
defined. -/
theorem C2_two_pass_total_or_error_witness :
    interpolate_two_pass [⟨0, 0, 1⟩, ⟨1, 0, 2⟩, ⟨0, 1, 3⟩]
        [Tri.mk ⟨0, 0, 1⟩ ⟨1, 0, 2⟩ ⟨0, 1, 3⟩] [(0, 0), (2, 2)] =
      Except.ok (interp_values [⟨0, 0, 1⟩, ⟨1, 0, 2⟩, ⟨0, 1, 3⟩]
        [Tri.mk ⟨0, 0, 1⟩ ⟨1, 0, 2⟩ ⟨0, 1, 3⟩] [(0, 0), (2, 2)]) ∧
    ∀ v ∈ interp_values [⟨0, 0, 1⟩, ⟨1, 0, 2⟩, ⟨0, 1, 3⟩]
        [Tri.mk ⟨0, 0, 1⟩ ⟨1, 0, 2⟩ ⟨0, 1, 3⟩] [(0, 0), (2, 2)], v.isSome = true := by
  have h := (C2_two_pass_total_or_error [⟨0, 0, 1⟩, ⟨1, 0, 2⟩, ⟨0, 1, 3⟩]
    [Tri.mk ⟨0, 0, 1⟩ ⟨1, 0, 2⟩ ⟨0, 1, 3⟩] [(0, 0), (2, 2)]).2
    (by with_unfolding_all decide)
  exact ⟨h.1, h.2.1⟩

/- ---------------------------------------------------------------------
Tabular Formatter (blum.py lines 162-167).

    grid_df = pd.DataFrame({
        'lat': grid_lat.ravel().round(3),
        'lon': grid_lon.ravel().round(3),
        'value': grid_values
    })
    grid_df.sort_values(['lat','lon'], ascending=[False, True], inplace=True)

`numpy.round` rounds half to even; the `value` column is attached without any
rounding, in the same ravel order as the lattice points, so row `i` pairs the
rounded coordinates of lattice point `i` with the interpolant evaluated at
the unrounded lattice point `i`.  `sort_values` with `ascending=[False,
True]` produces any permutation ordered lexicographically by (lat
descending, lon ascending); the embedding uses insertion sort, one such
permutation.
--------------------------------------------------------------------- -/

def round_half_even (x : ℚ) : ℤ :=
  if x - (⌊x⌋ : ℚ) < 1/2 then ⌊x⌋
  else if 1/2 < x - (⌊x⌋ : ℚ) then ⌊x⌋ + 1
  else if ⌊x⌋ % 2 = 0 then ⌊x⌋ else ⌊x⌋ + 1

def round3 (x : ℚ) : ℚ := (round_half_even (x * 1000) : ℚ) / 1000

structure Row where
  lat : ℚ
  lon : ℚ
  val : Option ℚ
deriving DecidableEq

def rowLE (r s : Row) : Prop :=
  s.lat < r.lat ∨ (r.lat = s.lat ∧ r.lon ≤ s.lon)

instance rowLE_decidable : DecidableRel rowLE := fun r s => by
  unfold rowLE
  infer_instance

instance rowLE_total : IsTotal Row rowLE := by
  refine ⟨fun r s => ?_⟩
  rcases lt_trichotomy r.lat s.lat with h | h | h
  · exact Or.inr (Or.inl h)
  · rcases le_total r.lon s.lon with hl | hl
    · exact Or.inl (Or.inr ⟨h, hl⟩)
    · exact Or.inr (Or.inr ⟨h.symm, hl⟩)
  · exact Or.inl (Or.inl h)

instance rowLE_trans : IsTrans Row rowLE := by
  refine ⟨fun r s t hrs hst => ?_⟩
  rcases hrs with h1 | ⟨e1, l1⟩
  · rcases hst with h2 | ⟨e2, l2⟩
    · exact Or.inl (lt_trans h2 h1)
    · exact Or.inl (by rw [← e2]; exact h1)
  · rcases hst with h2 | ⟨e2, l2⟩
    · exact Or.inl (by rw [e1]; exact h2)
    · exact Or.inr ⟨e1.trans e2, le_trans l1 l2⟩

def table_rows (pts : List ScatterPoint) (T : List Tri) (gpts : List (ℚ × ℚ)) : List Row :=
  gpts.map (fun g => Row.mk (round3 g.1) (round3 g.2) (interp_at pts T g))

def result_table (pts : List ScatterPoint) (T : List Tri) (gpts : List (ℚ × ℚ)) : List Row :=
  List.insertionSort rowLE (table_rows pts T gpts)

theorem rowLE_imp (r s : Row) (h : rowLE r s) :
    s.lat ≤ r.lat ∧ (r.lat = s.lat → r.lon ≤ s.lon) := by
  rcases h with h | ⟨he, hl⟩
  · exact ⟨le_of_lt h, fun he => absurd (he ▸ h) (lt_irrefl _)⟩
  · exact ⟨le_of_eq he.symm, fun _ => hl⟩

/-- C6: every produced result table has rounded (3-decimal) coordinates, one
row per lattice point, and its rows are ordered latitude non-increasing with
longitude non-decreasing within equal latitude. -/
theorem C6_result_table_order (pts : List ScatterPoint) (T : List Tri)
    (gpts : List (ℚ × ℚ)) :
    List.Pairwise (fun r s : Row => s.lat ≤ r.lat ∧ (r.lat = s.lat → r.lon ≤ s.lon))
      (result_table pts T gpts) ∧
    (result_table pts T gpts).length = gpts.length ∧
    ∀ r ∈ result_table pts T gpts, ∃ g ∈ gpts,
      r = Row.mk (round3 g.1) (round3 g.2) (interp_at pts T g) := by
  refine ⟨?_, ?_, ?_⟩
  · exact List.Pairwise.imp (fun h => rowLE_imp _ _ h)
      (List.sorted_insertionSort rowLE (table_rows pts T gpts))
  · rw [result_table, List.length_insertionSort, table_rows, List.length_map]
  · intro r hr
    have hr' : r ∈ table_rows pts T gpts := (List.mem_insertionSort rowLE).mp hr
    obtain ⟨g, hg, he⟩ := List.mem_map.mp hr'
    exact ⟨g, hg, he.symm⟩

/-- C10: the value column of the assembled table is the interpolant evaluated
at the exact, unrounded lattice points — row `i` pairs the 3-decimal-rounded
coordinates of lattice point `i` with the unrounded interpolated value at
that same unrounded point, and the whole value column equals the pointwise
interpolant over the unrounded lattice. -/
theorem C10_values_unrounded (pts : List ScatterPoint) (T : List Tri)
    (gpts : List (ℚ × ℚ)) (i : ℕ) (g : ℚ × ℚ) (h : gpts[i]? = some g) :
    (table_rows pts T gpts)[i]? =
      some (Row.mk (round3 g.1) (round3 g.2) (interp_at pts T g)) ∧
    (table_rows pts T gpts).map Row.val = gpts.map (interp_at pts T) := by
  constructor
  · rw [table_rows, List.getElem?_map, h]
    rfl
  · rw [table_rows, List.map_map]
    rfl

/-- C10 (witness): the unrounded-value property read off at index 0 of the
one-point lattice `[(1/3, 2/3)]` over the source set `{(0,0)↦1, (1,0)↦2,
(0,1)↦3}` with its one-triangle triangulation. -/
theorem C10_values_unrounded_witness :
    (table_rows [⟨0, 0, 1⟩, ⟨1, 0, 2⟩, ⟨0, 1, 3⟩]
        [Tri.mk ⟨0, 0, 1⟩ ⟨1, 0, 2⟩ ⟨0, 1, 3⟩] [(1/3, 2/3)])[0]? =
      some (Row.mk (round3 (1/3)) (round3 (2/3))
        (interp_at [⟨0, 0, 1⟩, ⟨1, 0, 2⟩, ⟨0, 1, 3⟩]
          [Tri.mk ⟨0, 0, 1⟩ ⟨1, 0, 2⟩ ⟨0, 1, 3⟩] (1/3, 2/3))) := by
  exact (C10_values_unrounded [⟨0, 0, 1⟩, ⟨1, 0, 2⟩, ⟨0, 1, 3⟩]
    [Tri.mk ⟨0, 0, 1⟩ ⟨1, 0, 2⟩ ⟨0, 1, 3⟩] [(1/3, 2/3)] 0 (1/3, 2/3) rfl).1

/- ---------------------------------------------------------------------
Dataset Reader and Pipeline Driver (blum.py lines 114-178 and 183-198).

    def handle_copernicus_file(file, selection):
        results = []
        try:
            try:
                if NETCDF4_AVAILABLE:
                    ds = xr.open_dataset(..., engine="netcdf4")
                else:
                    raise Exception("netCDF4 not available, fallback to h5netcdf")
            except Exception:
                ds = xr.open_dataset(..., engine="h5netcdf")
            ...
            for var in selection["variables"]:
                ... (subset, rewrap, grid, interpolate, format) ...
                results.append({"name": out_name, "content": buffer.getvalue()})
            ds.close()
            return results
        except Exception as e:
            st.error(f"... Failed to process (file.name): (e)")
            return None

    for idx, file in enumerate(uploaded_files, start=1):
        if file.name in copernicus_selections:
            results = handle_copernicus_file(file, ...)
            if results:
                st.session_state.final_excels.extend(results)
        else:
            st.warning(...)

The embedding abstracts one uploaded file into a `FileJob`: the decode
environment (whether netCDF4 is importable, whether each engine can open the
bytes, and the cause the h5netcdf engine would raise), whether the user made
a selection, and the outcome each selected variable's unit would have in
isolation (an artifact, or the message of the exception it raises).  The
single `try` of `handle_copernicus_file` wraps the whole variable loop, and
`ds.close()` is only on the success path after the loop.
--------------------------------------------------------------------- -/

structure DecodeEnv where
  netcdf4Available : Bool
  netcdf4Opens : Bool
  h5Opens : Bool
  h5Cause : String
deriving DecidableEq

inductive Engine where
  | netcdf4 : Engine
  | h5netcdf : Engine
deriving DecidableEq

def open_dataset (e : DecodeEnv) : Except String Engine :=
  if e.netcdf4Available && e.netcdf4Opens then Except.ok Engine.netcdf4
  else if e.h5Opens then Except.ok Engine.h5netcdf
  else Except.error e.h5Cause

structure Artifact where
  name : String
  content : ℕ
deriving DecidableEq

instance except_decidable_eq {e a : Type} [DecidableEq e] [DecidableEq a] :
    DecidableEq (Except e a) := fun x y =>
  match x, y with
  | Except.ok u, Except.ok v =>
    if h : u = v then isTrue (by rw [h]) else isFalse (by simp [h])
  | Except.ok _, Except.error _ => isFalse (by simp)
  | Except.error _, Except.ok _ => isFalse (by simp)
  | Except.error u, Except.error v =>
    if h : u = v then isTrue (by rw [h]) else isFalse (by simp [h])

structure FileJob where
  name : String
  env : DecodeEnv
  hasSelection : Bool
  varResults : List (Except String Artifact)
deriving DecidableEq

def is_ok {ε α : Type} (r : Except ε α) : Bool :=
  match r with
  | Except.ok _ => true
  | Except.error _ => false

def run_var_loop : List (Except String Artifact) → Except String (List Artifact)
  | [] => Except.ok []
  | Except.error c :: _ => Except.error c
  | Except.ok a :: rest =>
    match run_var_loop rest with
    | Except.ok l => Except.ok (a :: l)
    | Except.error c => Except.error c

def handle_copernicus_file (f : FileJob) : Except (String × String) (List Artifact) :=
  match open_dataset f.env with
  | Except.error c => Except.error (f.name, c)
  | Except.ok _ =>
    match run_var_loop f.varResults with
    | Except.error c => Except.error (f.name, c)
    | Except.ok arts => Except.ok arts

def ds_close_runs (f : FileJob) : Bool :=
  match open_dataset f.env with
  | Except.error _ => false
  | Except.ok _ => is_ok (run_var_loop f.varResults)

def file_artifacts (f : FileJob) : List Artifact :=
  if f.hasSelection then
    match handle_copernicus_file f with
    | Except.ok arts => arts
    | Except.error _ => []
  else []

def file_report (f : FileJob) : Option (String × String) :=
  if f.hasSelection then
    match handle_copernicus_file f with
    | Except.ok _ => none
    | Except.error r => some r
  else none

def run_batch (files : List FileJob) : List Artifact :=
  files.foldl (fun acc f => acc ++ file_artifacts f) []

theorem run_batch_eq_flatMap (files : List FileJob) :
    run_batch files = files.flatMap file_artifacts := by
  suffices h : ∀ acc, files.foldl (fun acc f => acc ++ file_artifacts f) acc =
      acc ++ files.flatMap file_artifacts by
    simpa using h []
  induction files with
  | nil => intro acc; simp
  | cons f fs ih =>
    intro acc
    simp only [List.foldl_cons, List.flatMap_cons, ih, List.append_assoc]

theorem run_var_loop_first_error (pre : List (Except String Artifact)) (c : String)
    (post : List (Except String Artifact)) (hpre : ∀ r ∈ pre, ∃ a, r = Except.ok a) :
    run_var_loop (pre ++ Except.error c :: post) = Except.error c := by
  induction pre with
  | nil => rfl
  | cons y ys ih =>
    obtain ⟨a, ha⟩ := hpre y (List.mem_cons_self y ys)
    subst ha
    have h2 := ih (fun x hx => hpre x (List.mem_cons_of_mem _ hx))
    simp [run_var_loop, h2]

def failing_unit_file : FileJob :=
  ⟨"alpha.nc", ⟨true, true, true, "unused"⟩, true,
    [Except.error "QhullError: empty clipped subset",
     Except.ok ⟨"alpha_v2_qgis.xlsx", 2⟩]⟩

def good_file : FileJob :=
  ⟨"beta.nc", ⟨true, true, true, "unused"⟩, true,
    [Except.ok ⟨"beta_v1_qgis.xlsx", 1⟩]⟩

def undecodable_file : FileJob :=
  ⟨"gamma.nc", ⟨false, true, false, "h5netcdf cannot open file"⟩, true,
    [Except.ok ⟨"gamma_v1_qgis.xlsx", 3⟩]⟩

/-- C1 (counterexample): a batch holding one decodable file with two selected
variables, where the first variable's unit fails and the second would succeed
in isolation (its unit outcome is an artifact): the batch output is empty, so
the would-succeed unit's artifact is not produced — the single try/except of
`handle_copernicus_file` aborts the remaining variables of the file and
discards its results. -/
theorem C1_counterexample :
    failing_unit_file.varResults.getLast? =
      some (Except.ok (Artifact.mk "alpha_v2_qgis.xlsx" 2)) ∧
    run_batch [failing_unit_file] = [] := by
  exact ⟨rfl, rfl⟩

/-- C1 (amended): every failure is caught and reported with the file name and
the underlying cause, and never prevents processing of the remaining files —
each file's contribution to the batch output depends on that file alone.
However, the failure boundary is the file, not the (file, variable) unit: a
failing variable unit aborts the remaining selected variables of the same
file and discards the artifacts already produced for that file, which
therefore contributes no artifacts at all. -/
theorem C1_per_file_isolation (files : List FileJob) (f : FileJob)
    (pre post : List FileJob) (hsplit : files = pre ++ f :: post) :
    run_batch files = run_batch pre ++ file_artifacts f ++ run_batch post ∧
    (∀ c vpre vpost, f.hasSelection = true →
      f.varResults = vpre ++ Except.error c :: vpost →
      (∀ u ∈ vpre, ∃ a, u = Except.ok a) →
      is_ok (open_dataset f.env) = true →
      file_report f = some (f.name, c) ∧ file_artifacts f = []) ∧
    (∀ c, f.hasSelection = true → open_dataset f.env = Except.error c →
      file_report f = some (f.name, c) ∧ file_artifacts f = []) := by
  refine ⟨?_, ?_, ?_⟩
  · subst hsplit
    simp [run_batch_eq_flatMap, List.flatMap_append, List.flatMap_cons, List.append_assoc]
  · intro c vpre vpost hsel hvars hpreok hopen
    cases ho : open_dataset f.env with
    | error c2 => rw [ho] at hopen; simp [is_ok] at hopen
    | ok g =>
      have hloop : run_var_loop f.varResults = Except.error c := by
        rw [hvars]
        exact run_var_loop_first_error vpre c vpost hpreok
      have hh : handle_copernicus_file f = Except.error (f.name, c) := by
        rw [handle_copernicus_file, ho, hloop]
      constructor
      · rw [file_report, hh]
        simp [hsel]
      · rw [file_artifacts, hh]
        simp [hsel]
  · intro c hsel hopen
    have hh : handle_copernicus_file f = Except.error (f.name, c) := by
      rw [handle_copernicus_file, hopen]
    constructor
    · rw [file_report, hh]
      simp [hsel]
    · rw [file_artifacts, hh]
      simp [hsel]

/-- C1 (witness): the amended theorem applied to the two-file batch
`[alpha.nc, beta.nc]` where alpha's first variable unit fails: alpha is
reported with its name and the failing unit's cause and contributes no
artifacts, while beta's artifact is exactly the batch output. -/
theorem C1_per_file_isolation_witness :
    run_batch [failing_unit_file, good_file] =
      run_batch [] ++ file_artifacts failing_unit_file ++ run_batch [good_file] ∧
    file_report failing_unit_file =
      some ("alpha.nc", "QhullError: empty clipped subset") ∧
    file_artifacts failing_unit_file = [] := by
  have h := C1_per_file_isolation [failing_unit_file, good_file] failing_unit_file
    [] [good_file] rfl
  have h2 := h.2.1 "QhullError: empty clipped subset" []
    [Except.ok ⟨"alpha_v2_qgis.xlsx", 2⟩] rfl rfl
    (fun u hu => absurd hu (List.not_mem_nil u)) rfl
  exact ⟨h.1, h2.1, h2.2⟩

/-- C7: evidence that the dataset handle is not closed on the error exit
path: for the concrete decodable file whose first variable unit raises, the
reader opens a handle (the netCDF4 engine succeeds), the variable loop fails,
and `ds.close()` — which sits after the loop on the success path only — never
runs, leaving the handle open; the claim that the handle is closed on every
exit path is violated by the code. -/
theorem C7_close_skipped_on_error :
    open_dataset failing_unit_file.env = Except.ok Engine.netcdf4 ∧
    is_ok (run_var_loop failing_unit_file.varResults) = false ∧
    ds_close_runs failing_unit_file = false ∧
    ds_close_runs good_file = true := by
  exact ⟨rfl, rfl, rfl, rfl⟩

/-- C9: the reader uses the primary netCDF4 backend exactly when it is both
importable and opens the file; otherwise (on any failure of that attempt,
including unavailability, whose cause is swallowed) it falls back to the
h5netcdf backend; the file fails only when both attempts fail, with the
secondary backend's cause, and such a decode failure is reported per-file
with the file name and that cause while the batch output over the remaining
files is unchanged. -/
theorem C9_engine_fallback (e : DecodeEnv) :
    (open_dataset e = Except.ok Engine.netcdf4 ↔
      (e.netcdf4Available && e.netcdf4Opens) = true) ∧
    (open_dataset e = Except.ok Engine.h5netcdf ↔
      (e.netcdf4Available && e.netcdf4Opens) = false ∧ e.h5Opens = true) ∧
    (open_dataset e = Except.error e.h5Cause ↔
      (e.netcdf4Available && e.netcdf4Opens) = false ∧ e.h5Opens = false) ∧
    (∀ f : FileJob, f.env = e → f.hasSelection = true →
      (e.netcdf4Available && e.netcdf4Opens) = false → e.h5Opens = false →
      file_report f = some (f.name, e.h5Cause) ∧
      file_artifacts f = [] ∧
      ∀ pre post, run_batch (pre ++ f :: post) = run_batch pre ++ run_batch post) := by
  refine ⟨?_, ?_, ?_, ?_⟩
  · unfold open_dataset
    cases hb : (e.netcdf4Available && e.netcdf4Opens) <;> cases hh : e.h5Opens <;> simp
  · unfold open_dataset
    cases hb : (e.netcdf4Available && e.netcdf4Opens) <;> cases hh : e.h5Opens <;> simp
  · unfold open_dataset
    cases hb : (e.netcdf4Available && e.netcdf4Opens) <;> cases hh : e.h5Opens <;> simp
  · intro f hf hsel hb hh
    have hopen : open_dataset f.env = Except.error e.h5Cause := by
      rw [hf, open_dataset, hb, hh]
      simp
    have hhandle : handle_copernicus_file f = Except.error (f.name, e.h5Cause) := by
      rw [handle_copernicus_file, hopen]
    have harts : file_artifacts f = [] := by
      rw [file_artifacts, hhandle]
      simp [hsel]
    refine ⟨by rw [file_report, hhandle]; simp [hsel], harts, ?_⟩
    intro pre post
    simp [run_batch_eq_flatMap, List.flatMap_append, List.flatMap_cons, harts]

/-- C9 (witness): the fallback contract read off on the concrete file
`gamma.nc` whose environment lacks netCDF4 and whose bytes h5netcdf cannot
open: the failure is reported with the file name and the h5netcdf cause, and
a batch containing it and `beta.nc` produces exactly beta's artifacts. -/
theorem C9_engine_fallback_witness :
    file_report undecodable_file = some ("gamma.nc", "h5netcdf cannot open file") ∧
    run_batch [undecodable_file, good_file] = run_batch [] ++ run_batch [good_file] := by
  have h := (C9_engine_fallback undecodable_file.env).2.2.2 undecodable_file
    rfl rfl rfl rfl
  exact ⟨h.1, h.2.2 [] [good_file]⟩

/-- C6 (witness): the ordering theorem read off on the concrete two-point
lattice `[(0,0), (1,1)]`: the table has one row per lattice point and is in
raster-scan order. -/
theorem C6_result_table_order_witness :
    (result_table [] [] [(0, 0), (1, 1)]).length = 2 ∧
    List.Pairwise (fun r s : Row => s.lat ≤ r.lat ∧ (r.lat = s.lat → r.lon ≤ s.lon))
      (result_table [] [] [(0, 0), (1, 1)]) := by
  have h := C6_result_table_order [] [] [(0, 0), (1, 1)]
  exact ⟨h.2.1, h.1⟩
